import Mathlib

/-! Verification of the confirmation-tracking call wrapper `getAdvancedContract` in
`packages/contracts-bedrock/src/deploy-utils.ts`.

The wrapper intercepts every method of an ethers `Contract`.  On each invocation it
resolves a gas price from `hre.deployConfig` (forced to `0` for constant/view methods),
submits the call, and — when the result is a transaction object — polls
`provider.getTransactionReceipt` once per second until the receipt has at least
`numDeployConfirmations` confirmations, resubmitting the call on the `kovan` network
after more than 120 polls without any receipt.

The embedding below models one tracked invocation over an explicit sequence of
receipt observations (`getTransactionReceipt` returns `null` ↦ `none`), and the
resubmission recursion over a per-attempt observation table with explicit fuel. -/

set_option maxRecDepth 4000

namespace DeployUtils

/-- Node-reported outcome of a mined transaction (a `TransactionReceipt`).  The only
field the wrapper inspects is `receipt.confirmations`. -/
structure Receipt where
  confirmations : Int
deriving DecidableEq, Repr

/-- Result of the polling `while (true)` loop for one submitted transaction.  Each
loop iteration performs one `await sleep(1000)` followed by one
`getTransactionReceipt` poll; `polls` and `sleeps` count iterations up to and
including the returning one.  `pending` means the observation sequence was exhausted
with the loop still running (the source loop would keep polling). -/
inductive TrackOutcome where
  /-- The loop hit `receipt.confirmations >= numDeployConfirmations` and returned
  the original transaction (`return tx`). -/
  | confirmed (polls sleeps : Nat)
  /-- The loop hit `timeout > maxTimeout && network.name === 'kovan'`, logged the
  warning and re-invoked the wrapped method (`return contract[fnName](...args)`). -/
  | resubmit (polls sleeps : Nat)
  /-- No more observations: the loop is still waiting. -/
  | pending (polls sleeps : Nat)
deriving DecidableEq, Repr

/-- Account for one more loop iteration (one sleep, one poll) in front of an
outcome produced by the rest of the loop. -/
def TrackOutcome.bump : TrackOutcome → TrackOutcome
  | .confirmed p s => .confirmed (p + 1) (s + 1)
  | .resubmit p s => .resubmit (p + 1) (s + 1)
  | .pending p s => .pending (p + 1) (s + 1)

/-- The polling loop body of `getAdvancedContract` (deploy-utils.ts lines 132–151),
with `timeout` the round counter accumulated so far and the list holding the
successive results of `contract.provider.getTransactionReceipt(tx.hash)`
(`none` models a `null` receipt).  `maxTimeout` is the source constant `120`. -/
def trackLoop (net : String) (numConf : Int) (timeout : Nat) :
    List (Option Receipt) → TrackOutcome
  | [] => .pending 0 0
  | none :: rest =>
    -- `if (receipt === null) { timeout++; if (timeout > maxTimeout && ... 'kovan') ... }`
    if timeout + 1 > 120 ∧ net = "kovan" then .resubmit 1 1
    else (trackLoop net numConf (timeout + 1) rest).bump
  | some r :: rest =>
    -- `else if (receipt.confirmations >= opts.hre.deployConfig.numDeployConfirmations)`
    if numConf ≤ r.confirmations then .confirmed 1 1
    else (trackLoop net numConf timeout rest).bump

/-- One full run of the confirmation tracker, starting from `timeout = 0`. -/
def track (net : String) (numConf : Int) (obs : List (Option Receipt)) : TrackOutcome :=
  trackLoop net numConf 0 obs

/-- A single polled observation satisfies the success test of the loop:
a receipt exists and `receipt.confirmations >= numDeployConfirmations`. -/
def qualifies (numConf : Int) : Option Receipt → Bool
  | none => false
  | some r => decide (numConf ≤ r.confirmations)

/-- Number of absent (`null`) receipts in an observation sequence; this is exactly
what the loop's `timeout` counter accumulates. -/
def noneCount : List (Option Receipt) → Nat
  | [] => 0
  | none :: rest => noneCount rest + 1
  | some _ :: rest => noneCount rest

/-- The deployment configuration fields read by the wrapper.  Reading
`deployConfig.gasPrice` can throw (the source wraps it in `try`/`catch`), which is
modelled by `Except`. -/
structure DeployConfig where
  gasPrice : Except Unit Int
  numDeployConfirmations : Int

/-- The hardhat runtime-environment fields read by the wrapper. -/
structure Hre where
  networkName : String
  deployConfig : DeployConfig

/-- Gas-price resolution performed at the start of every wrapped invocation
(deploy-utils.ts lines 105–118): `try { gasPrice = opts.hre.deployConfig.gasPrice }
catch { /- fine, no gas price -/ }` followed by
`if (contract.interface.getFunction(fnName).constant) { gasPrice = 0 }`. -/
def resolveGasPrice (cfgGasPrice : Except Unit Int) (isConstant : Bool) : Option Int :=
  let gasPrice : Option Int :=
    match cfgGasPrice with
    | .ok p => some p
    | .error _ => none
  if isConstant then some 0 else gasPrice

/-- The JavaScript error raised by a property access on `null`. -/
inductive JSError where
  | typeError
deriving DecidableEq, Repr

/-- The JavaScript values a wrapped submission `fn(...args, { gasPrice })` can
resolve to, as far as the guard `typeof tx !== 'object' || typeof tx.wait !==
'function'` can distinguish them.  `obj hasWaitFn id` is an object (`id` just
distinguishes transaction records); `prim` is any non-object primitive. -/
inductive JSVal where
  | nullV
  | undef
  | prim (n : Int)
  | obj (hasWaitFn : Bool) (id : Nat)
deriving DecidableEq, Repr

/-- Whether the value carries a pending-receipt capability: an object whose
`wait` property is a function. -/
def hasWaitCapability : JSVal → Bool
  | .obj w _ => w
  | _ => false

/-- The short-circuit guard `typeof tx !== 'object' || typeof tx.wait !==
'function'` (deploy-utils.ts lines 124–126).  `ok true` means the guard passed and
`tx` is returned as-is; `ok false` means `tx` is transaction-like and tracking
starts.  `typeof null === 'object'` in JavaScript, so `null` reaches the second
disjunct and the access `tx.wait` throws a `TypeError`. -/
def txGuard : JSVal → Except JSError Bool
  | .undef => .ok true
  | .prim _ => .ok true
  | .nullV => .error .typeError
  | .obj hasWait _ => .ok (!hasWait)

/-- Result of one wrapped-method invocation, together with how it ended. -/
inductive CallResult where
  /-- The non-transaction short circuit: the submission result is returned as-is. -/
  | value (v : JSVal)
  /-- Tracking confirmed the transaction: the original `tx` object is returned. -/
  | txRecord (tx : JSVal)
  /-- A JavaScript exception escaped the invocation. -/
  | thrown (e : JSError)
  /-- The observation sequence for the current attempt ran out with the poll loop
  still waiting (the source would keep polling). -/
  | hung
  /-- The resubmission recursion exceeded the modelling fuel. -/
  | outOfFuel
deriving DecidableEq, Repr

/-- One wrapped method invocation (the `async (...args) => { ... }` closure
installed by `getAdvancedContract`, deploy-utils.ts lines 103–152), together with
the number of resubmission warnings logged.

`submit attempt args gasPrice` is the underlying bound method `fn`: it models
`await fn(...args, { gasPrice })` for the given resubmission attempt (the same
arguments can yield a fresh transaction on each attempt).  `obsOf attempt` is the
receipt-observation sequence for the transaction of that attempt.  The structural
`fuel` only bounds the resubmission recursion depth of the model. -/
def wrappedCallAux (hre : Hre) (isConstant : Bool)
    (submit : Nat → List Int → Option Int → JSVal)
    (obsOf : Nat → List (Option Receipt)) (args : List Int) :
    Nat → Nat → CallResult × Nat
  | 0, _ => (.outOfFuel, 0)
  | fuel + 1, attempt =>
    let gasPrice := resolveGasPrice hre.deployConfig.gasPrice isConstant
    let tx := submit attempt args gasPrice
    match txGuard tx with
    | .error e => (.thrown e, 0)
    | .ok true => (.value tx, 0)
    | .ok false =>
      match track hre.networkName hre.deployConfig.numDeployConfirmations (obsOf attempt) with
      | .confirmed _ _ => (.txRecord tx, 0)
      | .resubmit _ _ =>
        -- `console.log('WARNING: ...'); return contract[fnName](...args)`
        let next := wrappedCallAux hre isConstant submit obsOf args fuel (attempt + 1)
        (next.1, next.2 + 1)
      | .pending _ _ => (.hung, 0)

/-- A wrapped method invocation starting at the first attempt. -/
def wrappedCall (hre : Hre) (isConstant : Bool)
    (submit : Nat → List Int → Option Int → JSVal)
    (obsOf : Nat → List (Option Receipt)) (args : List Int) (fuel : Nat) :
    CallResult × Nat :=
  wrappedCallAux hre isConstant submit obsOf args fuel 0

/-- The values the global `Object.defineProperty` slot holds while
`getAdvancedContract` runs: the saved original, or the temporary wrapper
installed around it that forces `prop.writable = true` on every definition. -/
inductive DefinePropertyFn where
  | original (id : Int)
  | writableBypass (saved : DefinePropertyFn)
deriving DecidableEq, Repr

/-- The credential slot of an ethers `Contract`: a signer when one is attached,
otherwise the bare provider (tokens stand for the opaque JavaScript objects). -/
inductive ContractCredential where
  | signerCred (s : Int)
  | providerCred (p : Int)
deriving DecidableEq, Repr

/-- The identity of an ethers `Contract` as far as `getAdvancedContract` copies
it: address, method interface and credential. -/
structure EthersContract where
  address : Int
  iface : Int
  credential : ContractCredential
deriving DecidableEq, Repr

/-- The third constructor argument `opts.contract.signer || opts.contract.provider`:
JavaScript picks `contract.signer` when it is non-null and falls back to
`contract.provider` otherwise. -/
def signerOrProviderArg (c : EthersContract) : ContractCredential :=
  match c.credential with
  | .signerCred s => .signerCred s
  | .providerCred p => .providerCred p

/-- The handle-construction part of `getAdvancedContract` (deploy-utils.ts lines
86–100), threading the global `Object.defineProperty` slot: save it in `def`,
install the writable bypass, build
`new Contract(address, interface, signer || provider)` while the bypass is
installed, then reset the slot to the saved value. -/
def getAdvancedContract (defineProperty : DefinePropertyFn) (c : EthersContract) :
    EthersContract × DefinePropertyFn :=
  let savedDef := defineProperty
  let _bypass := DefinePropertyFn.writableBypass savedDef
  let contract : EthersContract :=
    { address := c.address, iface := c.iface, credential := signerOrProviderArg c }
  (contract, savedDef)

@[simp]
theorem noneCount_nil : noneCount [] = 0 := rfl

@[simp]
theorem noneCount_cons_none (rest : List (Option Receipt)) :
    noneCount (none :: rest) = noneCount rest + 1 := rfl

@[simp]
theorem noneCount_cons_some (r : Receipt) (rest : List (Option Receipt)) :
    noneCount (some r :: rest) = noneCount rest := rfl

theorem noneCount_take_le (n : Nat) (l : List (Option Receipt)) :
    noneCount (l.take n) ≤ noneCount l := by
  induction l generalizing n with
  | nil => simp
  | cons o rest ih =>
    cases n with
    | zero => simp [noneCount]
    | succ m =>
      rw [List.take_succ_cons]
      cases o with
      | none => simpa using ih m
      | some r => simpa using ih m

theorem TrackOutcome.bump_eq_confirmed {o : TrackOutcome} {p s : Nat}
    (h : o.bump = .confirmed p s) :
    ∃ q u, o = .confirmed q u ∧ p = q + 1 ∧ s = u + 1 := by
  cases o <;> simp [TrackOutcome.bump] at h
  exact ⟨_, _, rfl, h.1.symm, h.2.symm⟩

theorem TrackOutcome.bump_eq_resubmit {o : TrackOutcome} {p s : Nat}
    (h : o.bump = .resubmit p s) :
    ∃ q u, o = .resubmit q u ∧ p = q + 1 ∧ s = u + 1 := by
  cases o <;> simp [TrackOutcome.bump] at h
  exact ⟨_, _, rfl, h.1.symm, h.2.symm⟩

/-- Soundness of a `confirmed` outcome: the loop returned after as many sleeps as
polls, at the first poll whose observation passes the confirmation test. -/
theorem trackLoop_confirmed_sound (net : String) (numConf : Int) :
    ∀ (obs : List (Option Receipt)) (t p s : Nat),
      trackLoop net numConf t obs = .confirmed p s →
      s = p ∧ 1 ≤ p ∧ qualifies numConf (obs.getD (p - 1) none) = true ∧
        ∀ j, j < p - 1 → qualifies numConf (obs.getD j none) = false := by
  intro obs
  induction obs with
  | nil =>
    intro t p s h
    simp [trackLoop] at h
  | cons o rest ih =>
    intro t p s h
    cases o with
    | none =>
      simp only [trackLoop] at h
      split at h
      · simp at h
      · obtain ⟨q, u, hrec, hp, hs⟩ := TrackOutcome.bump_eq_confirmed h
        obtain ⟨hsp, hq1, hqual, hprev⟩ := ih (t + 1) q u hrec
        refine ⟨by omega, by omega, ?_, ?_⟩
        · have hpm : p - 1 = (q - 1) + 1 := by omega
          rw [hpm, List.getD_cons_succ]
          exact hqual
        · intro j hj
          cases j with
          | zero => simp [qualifies]
          | succ i =>
            rw [List.getD_cons_succ]
            exact hprev i (by omega)
    | some r =>
      simp only [trackLoop] at h
      split at h
      next hc =>
        simp at h
        obtain ⟨hp, hs⟩ := h
        refine ⟨by omega, by omega, ?_, ?_⟩
        · have hpm : p - 1 = 0 := by omega
          rw [hpm, List.getD_cons_zero]
          simp [qualifies, hc]
        · intro j hj
          omega
      next hc =>
        obtain ⟨q, u, hrec, hp, hs⟩ := TrackOutcome.bump_eq_confirmed h
        obtain ⟨hsp, hq1, hqual, hprev⟩ := ih t q u hrec
        refine ⟨by omega, by omega, ?_, ?_⟩
        · have hpm : p - 1 = (q - 1) + 1 := by omega
          rw [hpm, List.getD_cons_succ]
          exact hqual
        · intro j hj
          cases j with
          | zero =>
            rw [List.getD_cons_zero]
            simp [qualifies, hc]
          | succ i =>
            rw [List.getD_cons_succ]
            exact hprev i (by omega)

/-- Completeness: if position `k` holds the first qualifying observation and the
resubmission branch cannot fire before it (at most 120 absent receipts precede it,
or the network is not kovan), the loop confirms at poll `k + 1`. -/
theorem trackLoop_confirmed_complete (net : String) (numConf : Int) :
    ∀ (obs : List (Option Receipt)) (t k : Nat),
      qualifies numConf (obs.getD k none) = true →
      (∀ j, j < k → qualifies numConf (obs.getD j none) = false) →
      (t + noneCount (obs.take k) ≤ 120 ∨ net ≠ "kovan") →
      trackLoop net numConf t obs = .confirmed (k + 1) (k + 1) := by
  intro obs
  induction obs with
  | nil =>
    intro t k hq hprev hbound
    rw [List.getD_nil] at hq
    simp [qualifies] at hq
  | cons o rest ih =>
    intro t k hq hprev hbound
    cases k with
    | zero =>
      rw [List.getD_cons_zero] at hq
      cases o with
      | none => simp [qualifies] at hq
      | some r =>
        have hc : numConf ≤ r.confirmations := by simpa [qualifies] using hq
        simp only [trackLoop]
        rw [if_pos hc]
    | succ m =>
      have h0 : qualifies numConf o = false := by
        have := hprev 0 (Nat.succ_pos m)
        rwa [List.getD_cons_zero] at this
      rw [List.getD_cons_succ] at hq
      have hprev2 : ∀ j, j < m → qualifies numConf (rest.getD j none) = false := by
        intro j hj
        have := hprev (j + 1) (by omega)
        rwa [List.getD_cons_succ] at this
      cases o with
      | some r =>
        have hc : ¬ numConf ≤ r.confirmations := by
          simpa [qualifies] using h0
        have hbound2 : t + noneCount (rest.take m) ≤ 120 ∨ net ≠ "kovan" := by
          rcases hbound with hb | hb
          · left
            rw [List.take_succ_cons] at hb
            simpa using hb
          · right; exact hb
        simp only [trackLoop]
        rw [if_neg hc, ih t m hq hprev2 hbound2]
        rfl
      | none =>
        have hcond : ¬ (t + 1 > 120 ∧ net = "kovan") := by
          rcases hbound with hb | hb
          · rintro ⟨hgt, -⟩
            rw [List.take_succ_cons] at hb
            simp at hb
            omega
          · rintro ⟨-, hk⟩
            exact hb hk
        have hbound2 : (t + 1) + noneCount (rest.take m) ≤ 120 ∨ net ≠ "kovan" := by
          rcases hbound with hb | hb
          · left
            rw [List.take_succ_cons] at hb
            simp at hb
            omega
          · right; exact hb
        simp only [trackLoop]
        rw [if_neg hcond, ih (t + 1) m hq hprev2 hbound2]
        rfl

/-- On any network other than kovan, the loop can never take the resubmission
branch, whatever the observations and the accumulated round counter. -/
theorem trackLoop_ne_resubmit_of_ne_kovan (net : String) (numConf : Int)
    (hnet : net ≠ "kovan") :
    ∀ (obs : List (Option Receipt)) (t p s : Nat),
      trackLoop net numConf t obs ≠ .resubmit p s := by
  intro obs
  induction obs with
  | nil =>
    intro t p s h
    simp [trackLoop] at h
  | cons o rest ih =>
    intro t p s h
    cases o with
    | none =>
      simp only [trackLoop] at h
      rw [if_neg (fun hc => hnet hc.2)] at h
      obtain ⟨q, u, hrec, -, -⟩ := TrackOutcome.bump_eq_resubmit h
      exact ih (t + 1) q u hrec
    | some r =>
      simp only [trackLoop] at h
      split at h
      · simp at h
      · obtain ⟨q, u, hrec, -, -⟩ := TrackOutcome.bump_eq_resubmit h
        exact ih t q u hrec

/-- A `resubmit` outcome forces the network to be kovan and forces the round
counter to have counted exactly 121 absent receipts among the polls performed:
under-confirmed receipts never advance the counter. -/
theorem trackLoop_resubmit_count (net : String) (numConf : Int) :
    ∀ (obs : List (Option Receipt)) (t p s : Nat), t ≤ 120 →
      trackLoop net numConf t obs = .resubmit p s →
      net = "kovan" ∧ s = p ∧ t + noneCount (obs.take p) = 121 := by
  intro obs
  induction obs with
  | nil =>
    intro t p s ht h
    simp [trackLoop] at h
  | cons o rest ih =>
    intro t p s ht h
    by_cases hk : net = "kovan"
    · cases o with
      | none =>
        simp only [trackLoop] at h
        split at h
        next hc =>
          simp at h
          obtain ⟨hp, hs⟩ := h
          refine ⟨hk, by omega, ?_⟩
          have hpm : p = 1 := by omega
          subst hpm
          rw [List.take_succ_cons, List.take_zero]
          simp
          omega
        next hc =>
          have ht1 : t + 1 ≤ 120 := by
            by_contra hgt
            exact hc ⟨by omega, hk⟩
          obtain ⟨q, u, hrec, hp, hs⟩ := TrackOutcome.bump_eq_resubmit h
          obtain ⟨-, hsp, hcount⟩ := ih (t + 1) q u ht1 hrec
          refine ⟨hk, by omega, ?_⟩
          subst hp
          rw [List.take_succ_cons]
          simp
          omega
      | some r =>
        simp only [trackLoop] at h
        split at h
        · simp at h
        · obtain ⟨q, u, hrec, hp, hs⟩ := TrackOutcome.bump_eq_resubmit h
          obtain ⟨-, hsp, hcount⟩ := ih t q u ht hrec
          refine ⟨hk, by omega, ?_⟩
          subst hp
          rw [List.take_succ_cons]
          simpa using hcount
    · exact absurd h (trackLoop_ne_resubmit_of_ne_kovan net numConf hk (o :: rest) t p s)

/-- On kovan, 121 consecutive absent receipts make the loop resubmit at poll 121,
whatever observations would have followed. -/
theorem trackLoop_replicate_none_resubmit (numConf : Int)
    (tail : List (Option Receipt)) :
    ∀ (k t : Nat), t + k = 121 → 1 ≤ k →
      trackLoop "kovan" numConf t (List.replicate k none ++ tail) = .resubmit k k := by
  intro k
  induction k with
  | zero =>
    intro t hsum h1
    omega
  | succ m ih =>
    intro t hsum h1
    rw [List.replicate_succ, List.cons_append]
    simp only [trackLoop]
    rcases Nat.eq_zero_or_pos m with hz | hpos
    · subst hz
      split
      next => rfl
      next hc => exact absurd ⟨by omega, by trivial⟩ hc
    · rw [if_neg (by rintro ⟨hgt, -⟩; omega)]
      rw [ih (t + 1) (by omega) hpos]
      rfl

/-- The resubmission bound for a full tracker run started at round counter 0. -/
theorem track_resubmit_count (net : String) (numConf : Int)
    (obs : List (Option Receipt)) (p s : Nat)
    (h : track net numConf obs = .resubmit p s) :
    net = "kovan" ∧ s = p ∧ noneCount (obs.take p) = 121 := by
  obtain ⟨hk, hsp, hcount⟩ :=
    trackLoop_resubmit_count net numConf obs 0 p s (by omega) h
  exact ⟨hk, hsp, by omega⟩

/-- A full tracker run on kovan over 121 leading absent receipts resubmits at
poll 121. -/
theorem track_replicate_none_resubmit (numConf : Int)
    (tail : List (Option Receipt)) :
    track "kovan" numConf (List.replicate 121 none ++ tail) = .resubmit 121 121 :=
  trackLoop_replicate_none_resubmit numConf tail 121 0 rfl (by omega)

/-- C1 counterexample: on kovan with threshold 2, an observation sequence of 121
absent receipts followed by a qualifying receipt (5 confirmations) makes the
tracker resubmit at poll 121 instead of returning success at poll 122, the first
poll whose receipt meets the threshold. -/
theorem c1_counterexample :
    qualifies 2 ((List.replicate 121 (none : Option Receipt)
        ++ [some (Receipt.mk 5)]).getD 121 none) = true ∧
    track "kovan" 2 (List.replicate 121 none ++ [some (Receipt.mk 5)]) =
      TrackOutcome.resubmit 121 121 ∧
    TrackOutcome.resubmit 121 121 ≠ TrackOutcome.confirmed 122 122 :=
  ⟨by decide, track_replicate_none_resubmit 2 [some (Receipt.mk 5)], by decide⟩

/-- C1 (amended): for every threshold and observation sequence, a success
outcome is only ever produced at the first poll whose observation holds a
receipt with confirmation count at least the threshold — never while the most
recent observation is absent or under-confirmed — and the tracker does return
success at that first qualifying poll provided the kovan resubmission branch
cannot fire before it (at most 120 absent polls precede it, or the network is
not kovan). -/
theorem c1_tracker_success_at_first_qualifying_poll
    (net : String) (numConf : Int) (obs : List (Option Receipt)) :
    (∀ p s, track net numConf obs = .confirmed p s →
      s = p ∧ 1 ≤ p ∧ qualifies numConf (obs.getD (p - 1) none) = true ∧
        ∀ j, j < p - 1 → qualifies numConf (obs.getD j none) = false) ∧
    (∀ k, qualifies numConf (obs.getD k none) = true →
      (∀ j, j < k → qualifies numConf (obs.getD j none) = false) →
      (noneCount (obs.take k) ≤ 120 ∨ net ≠ "kovan") →
      track net numConf obs = .confirmed (k + 1) (k + 1)) := by
  constructor
  · intro p s h
    exact trackLoop_confirmed_sound net numConf obs 0 p s h
  · intro k hq hprev hbound
    refine trackLoop_confirmed_complete net numConf obs 0 k hq hprev ?_
    rcases hbound with hb | hb
    · left; omega
    · right; exact hb

theorem c1_witness :
    track "goerli" 2 [none, some (Receipt.mk 3)] = TrackOutcome.confirmed 2 2 :=
  (c1_tracker_success_at_first_qualifying_poll "goerli" 2 [none, some (Receipt.mk 3)]).2 1
    (by decide) (by decide) (by decide)

/-- C2: on any network other than kovan the tracker never resubmits, however
many polls pass without a receipt, and it never returns success unless the
receipt observed at the returning poll meets the confirmation threshold. -/
theorem c2_non_kovan_never_resubmits (net : String) (hnet : net ≠ "kovan")
    (numConf : Int) (obs : List (Option Receipt)) :
    (∀ p s, track net numConf obs ≠ .resubmit p s) ∧
    (∀ p s, track net numConf obs = .confirmed p s →
      qualifies numConf (obs.getD (p - 1) none) = true) := by
  constructor
  · intro p s
    exact trackLoop_ne_resubmit_of_ne_kovan net numConf hnet obs 0 p s
  · intro p s h
    exact (trackLoop_confirmed_sound net numConf obs 0 p s h).2.2.1

theorem c2_witness :
    track "goerli" 1 (List.replicate 200 (none : Option Receipt)) ≠
      TrackOutcome.resubmit 121 121 :=
  (c2_non_kovan_never_resubmits "goerli" (by decide) 1 (List.replicate 200 none)).1 121 121

/-- C3: a constant (view) method is always submitted with gas price forced to 0,
whatever value or failure the configured gas price resolves to. -/
theorem c3_view_call_gas_price_zero (cfgGasPrice : Except Unit Int) :
    resolveGasPrice cfgGasPrice true = some 0 := by
  cases cfgGasPrice <;> rfl

/-- C4 counterexample: with required confirmations 2 and receipt observations
absent, absent, one confirmation, two confirmations, the tracker confirms at the
4th poll but has performed four one-second sleeps — one before every poll,
including the first — not three. -/
theorem c4_counterexample :
    track "goerli" 2 [none, none, some (Receipt.mk 1), some (Receipt.mk 2)] = TrackOutcome.confirmed 4 4 ∧
    TrackOutcome.confirmed 4 4 ≠ TrackOutcome.confirmed 4 3 :=
  ⟨by decide, by decide⟩

/-- C4 (amended): in the scenario with required confirmations 2 and receipt
sequence absent, absent, one confirmation, two confirmations, the tracker
returns success at the 4th poll, having performed exactly four one-second
sleeps, one before each poll. -/
theorem c4_scenario_confirms_at_fourth_poll :
    track "goerli" 2 [none, none, some (Receipt.mk 1), some (Receipt.mk 2)] = TrackOutcome.confirmed 4 4 := by
  decide

/-- C5: on kovan, when a tracked attempt observes 121 consecutive absent
receipts the tracker resubmits at poll 121: one warning is logged and the whole
call becomes a fresh invocation of the wrapped method with the same arguments on
the next attempt, the stalled transaction record being discarded. -/
theorem c5_kovan_resubmits_with_same_args (hre : Hre) (isConstant : Bool)
    (submit : Nat → List Int → Option Int → JSVal)
    (obsOf : Nat → List (Option Receipt)) (args : List Int)
    (fuel attempt : Nat) (tail : List (Option Receipt))
    (hnet : hre.networkName = "kovan")
    (hobs : obsOf attempt = List.replicate 121 none ++ tail)
    (htx : txGuard (submit attempt args
      (resolveGasPrice hre.deployConfig.gasPrice isConstant)) = Except.ok false) :
    track hre.networkName hre.deployConfig.numDeployConfirmations (obsOf attempt)
        = TrackOutcome.resubmit 121 121 ∧
    wrappedCallAux hre isConstant submit obsOf args (fuel + 1) attempt =
      ((wrappedCallAux hre isConstant submit obsOf args fuel (attempt + 1)).1,
        (wrappedCallAux hre isConstant submit obsOf args fuel (attempt + 1)).2 + 1) := by
  have htr : track hre.networkName hre.deployConfig.numDeployConfirmations (obsOf attempt)
      = TrackOutcome.resubmit 121 121 := by
    rw [hnet, hobs]
    exact track_replicate_none_resubmit _ tail
  refine ⟨htr, ?_⟩
  simp only [wrappedCallAux, htx, htr]

theorem c5_witness :
    track "kovan" (1 : Int) (List.replicate 121 (none : Option Receipt)) =
      TrackOutcome.resubmit 121 121 :=
  (c5_kovan_resubmits_with_same_args ⟨"kovan", ⟨Except.ok 1, 1⟩⟩ false
    (fun _ _ _ => JSVal.obj true 0) (fun _ => List.replicate 121 none) [] 0 0 []
    rfl (by simp) rfl).1

/-- C6 counterexample: a submission resolving to null carries no pending-receipt
wait capability, yet the wrapped call throws a TypeError instead of returning
null immediately: in JavaScript `typeof null` is the string `object`, so the
guard goes on to read `null.wait`. -/
theorem c6_counterexample :
    hasWaitCapability JSVal.nullV = false ∧
    wrappedCallAux ⟨"goerli", ⟨Except.ok 1, 1⟩⟩ false (fun _ _ _ => JSVal.nullV)
        (fun _ => []) [] 1 0 = (CallResult.thrown JSError.typeError, 0) ∧
    (CallResult.thrown JSError.typeError, (0 : Nat)) ≠ (CallResult.value JSVal.nullV, 0) :=
  ⟨rfl, by decide, by decide⟩

/-- C6 (amended): a submission result that is not null and has no wait
capability is returned immediately as a plain value, bypassing the confirmation
tracker entirely: the observation table plays no part in the outcome. -/
theorem c6_non_transaction_short_circuit (hre : Hre) (isConstant : Bool)
    (submit : Nat → List Int → Option Int → JSVal)
    (obsOf : Nat → List (Option Receipt)) (args : List Int) (fuel attempt : Nat)
    (hnn : submit attempt args (resolveGasPrice hre.deployConfig.gasPrice isConstant)
      ≠ JSVal.nullV)
    (hnw : hasWaitCapability
      (submit attempt args (resolveGasPrice hre.deployConfig.gasPrice isConstant)) = false) :
    wrappedCallAux hre isConstant submit obsOf args (fuel + 1) attempt =
      (CallResult.value
        (submit attempt args (resolveGasPrice hre.deployConfig.gasPrice isConstant)), 0) := by
  cases htx : submit attempt args (resolveGasPrice hre.deployConfig.gasPrice isConstant) with
  | nullV => exact absurd htx hnn
  | undef => simp only [wrappedCallAux, htx, txGuard]
  | prim n => simp only [wrappedCallAux, htx, txGuard]
  | obj w i =>
    rw [htx] at hnw
    simp only [hasWaitCapability] at hnw
    subst hnw
    simp only [wrappedCallAux, htx, txGuard, Bool.not_false]

theorem c6_witness :
    wrappedCallAux ⟨"goerli", ⟨Except.ok 1, 1⟩⟩ false (fun _ _ _ => JSVal.prim 42)
        (fun _ => []) [] 1 0 = (CallResult.value (JSVal.prim 42), 0) :=
  c6_non_transaction_short_circuit ⟨"goerli", ⟨Except.ok 1, 1⟩⟩ false
    (fun _ _ _ => JSVal.prim 42) (fun _ => []) [] 0 0 (by decide) (by decide)

/-- C7: when reading the configured gas price throws, the wrapped call still
goes through: the submission happens with no gas price override and the call
completes normally (here: the transaction confirms and its record is
returned). -/
theorem c7_gas_price_failure_still_submits (u : Unit) (net : String) (numConf : Int)
    (submit : Nat → List Int → Option Int → JSVal)
    (obsOf : Nat → List (Option Receipt)) (args : List Int)
    (fuel attempt : Nat) (txid : Nat) (p s : Nat)
    (hsub : submit attempt args none = JSVal.obj true txid)
    (htrack : track net numConf (obsOf attempt) = .confirmed p s) :
    resolveGasPrice (Except.error u) false = none ∧
    wrappedCallAux ⟨net, ⟨Except.error u, numConf⟩⟩ false submit obsOf args
        (fuel + 1) attempt = (CallResult.txRecord (JSVal.obj true txid), 0) := by
  have h1 : resolveGasPrice (Except.error u) false = none := rfl
  refine ⟨h1, ?_⟩
  simp only [wrappedCallAux, h1, hsub, txGuard, Bool.not_true, htrack]

theorem c7_witness :
    wrappedCallAux ⟨"goerli", ⟨Except.error (), 1⟩⟩ false
        (fun _ _ g => match g with | none => JSVal.obj true 7 | some _ => JSVal.prim 0)
        (fun _ => [some (Receipt.mk 5)]) [] 1 0 = (CallResult.txRecord (JSVal.obj true 7), 0) :=
  (c7_gas_price_failure_still_submits () "goerli" 1
    (fun _ _ g => match g with | none => JSVal.obj true 7 | some _ => JSVal.prim 0)
    (fun _ => [some (Receipt.mk 5)]) [] 0 0 7 1 1 rfl (by decide)).2

/-- C8: the handle returned by `getAdvancedContract` keeps the input handle's
address, interface and credential (the signer when one is present, otherwise the
provider), and the global `Object.defineProperty` slot is restored to its prior
value once construction is done. -/
theorem c8_same_identity_and_defineProperty_restored
    (defineProperty : DefinePropertyFn) (c : EthersContract) :
    (getAdvancedContract defineProperty c).1.address = c.address ∧
    (getAdvancedContract defineProperty c).1.iface = c.iface ∧
    (getAdvancedContract defineProperty c).1.credential = c.credential ∧
    (getAdvancedContract defineProperty c).2 = defineProperty := by
  refine ⟨rfl, rfl, ?_, rfl⟩
  cases hc : c.credential <;> simp [getAdvancedContract, signerOrProviderArg, hc]

/-- C9: a resubmission outcome forces the network to be kovan and exactly 121 of
the polls performed to have observed no receipt at all: a poll observing an
under-confirmed receipt never advances the round counter, so a sequence with at
most 120 absent observations can never trigger resubmission, however many
under-confirmed polls it contains. -/
theorem c9_resubmission_needs_121_absent_polls
    (net : String) (numConf : Int) (obs : List (Option Receipt)) :
    (∀ p s, track net numConf obs = .resubmit p s →
      net = "kovan" ∧ s = p ∧ noneCount (obs.take p) = 121) ∧
    (noneCount obs ≤ 120 → ∀ p s, track net numConf obs ≠ .resubmit p s) := by
  constructor
  · intro p s h
    exact track_resubmit_count net numConf obs p s h
  · intro hle p s h
    obtain ⟨-, -, hcount⟩ := track_resubmit_count net numConf obs p s h
    have := noneCount_take_le p obs
    omega

theorem c9_witness :
    noneCount ((List.replicate 121 (none : Option Receipt)).take 121) = 121 :=
  ((c9_resubmission_needs_121_absent_polls "kovan" 0 (List.replicate 121 none)).1 121 121
    (by simpa using track_replicate_none_resubmit 0 [])).2.2

/-- C10: a submission resolving to null makes the wrapped call throw a TypeError
from the `null.wait` access rather than return null immediately: in JavaScript
`typeof null` is the string `object`, so null passes the first guard disjunct
and the second one dereferences it. -/
theorem c10_null_submission_throws (hre : Hre) (isConstant : Bool)
    (submit : Nat → List Int → Option Int → JSVal)
    (obsOf : Nat → List (Option Receipt)) (args : List Int) (fuel attempt : Nat)
    (hnull : submit attempt args (resolveGasPrice hre.deployConfig.gasPrice isConstant)
      = JSVal.nullV) :
    wrappedCallAux hre isConstant submit obsOf args (fuel + 1) attempt
        = (CallResult.thrown JSError.typeError, 0) ∧
    (CallResult.thrown JSError.typeError, (0 : Nat)) ≠ (CallResult.value JSVal.nullV, 0) := by
  refine ⟨?_, by decide⟩
  simp only [wrappedCallAux, hnull, txGuard]

theorem c10_witness :
    wrappedCallAux ⟨"mainnet", ⟨Except.ok 3, 2⟩⟩ true (fun _ _ _ => JSVal.nullV)
        (fun _ => [none]) [] 1 0 = (CallResult.thrown JSError.typeError, 0) :=
  (c10_null_submission_throws ⟨"mainnet", ⟨Except.ok 3, 2⟩⟩ true (fun _ _ _ => JSVal.nullV)
    (fun _ => [none]) [] 0 0 rfl).1

end DeployUtils
